import Mathlib

/-!
# homekit-scd30: the polling loop, the flag defaults and the signal task

A shallow embedding of `main.go`.  The program is glue between two external
libraries (the HomeKit accessory server and the SCD30 sensor driver), so the
embedding keeps the control flow of `main.go` line by line and records every
call into those libraries as an event of a trace:

* a characteristic is a cell written by `SetValue`; the accessory library
  keeps a float characteristic within its range, so the cell holds the
  argument of the last `SetValue` limited to that range;
* the sensor is a state machine with the two calls `HasMeasurement` and
  `GetMeasurement`, each returning Go's pair `(value, err)`;
* `log.Fatalf` prints and ends the process with status 1.
-/

namespace SCD30

/-! ## Go values -/

/-- The value denoted by a Go `float32` or `float64`: not-a-number, an
infinity, or a finite number.  Finite values are carried as rationals (the
two zeros are identified, they compare equal in Go). -/
inductive GoFloat where
  | nan
  | inf (negative : Bool)
  | fin (q : ℚ)
  deriving DecidableEq

/-- Go's `x > y` on floating-point operands: false as soon as one operand is
not a number. -/
def GoFloat.gt : GoFloat → GoFloat → Bool
  | .nan, _ => false
  | _, .nan => false
  | .inf a, .inf b => !a && b
  | .inf a, .fin _ => !a
  | .fin _, .inf b => b
  | .fin p, .fin q => decide (q < p)

/-- The conversion `float64(x)` of a `float32` (or `float64`) operand.  Every
binary32 value is a binary64 value, so the conversion keeps the denoted
value. -/
def float64 (x : GoFloat) : GoFloat := x

/-- The accessory library's `SetValue` keeps a float characteristic within its
range: a value above the maximum is stored as the maximum, a value below the
minimum as the minimum, and any other value (a not-a-number compares false
both times) as it is. -/
def clampFloat (min max value : GoFloat) : GoFloat :=
  if value.gt max then max else if min.gt value then min else value

/-- The conversion `uint16(x)` of a Go `int`: the low 16 bits. -/
def uint16 (x : Int) : Nat := (x % 65536).toNat

/-- Two's-complement wrap of an integer into `int64`. -/
def wrapInt64 (x : Int) : Int := (x + 2 ^ 63) % 2 ^ 64 - 2 ^ 63

/-- The range of a Go `int` of the given width (32 or 64 bits). -/
def inIntRange (bits : Nat) (x : Int) : Prop :=
  -(2 ^ (bits - 1) : Int) ≤ x ∧ x < 2 ^ (bits - 1)

instance (bits : Nat) (x : Int) : Decidable (inIntRange bits x) := by
  unfold inIntRange; infer_instance

/-- The constant `time.Second`, in nanoseconds. -/
def Second : Int := 1000000000

/-- The conversion `time.Duration(x)` of a Go `int`: `Duration` is `int64`. -/
def Duration (x : Int) : Int := wrapInt64 x

/-- The argument of `time.Sleep` at line 103:
`time.Second * time.Duration(interval)`, an `int64` product. -/
def sleepDuration (interval : Int) : Int := wrapInt64 (Second * Duration interval)

/-! ## Data model -/

/-- The package-level variables set by `init` (lines 21-38). -/
structure Config where
  db : String
  i2c : String
  interval : Int
  deriving DecidableEq

/-- The driver's `Measurement`, as `main.go` reads it. -/
structure Measurement where
  CO2 : GoFloat
  Temperature : GoFloat
  Humidity : GoFloat
  deriving DecidableEq

/-- The four characteristics the polling loop writes. -/
structure Characteristics where
  CurrentTemperature : GoFloat
  CurrentRelativeHumidity : GoFloat
  CarbonDioxideDetected : Int
  CarbonDioxideLevel : GoFloat
  deriving DecidableEq

/-- What the program does to the outside, in order. -/
inductive Event where
  | StartMeasurements (interval : Nat)
  | Sleep (nanoseconds : Int)
  | HasMeasurement
  | GetMeasurement
  | SetCurrentTemperature (v : GoFloat)
  | SetCurrentRelativeHumidity (v : GoFloat)
  | SetCarbonDioxideDetected (v : Int)
  | SetCarbonDioxideLevel (v : GoFloat)
  | Printf (temperature humidity co2 : GoFloat)
  | Print (line : String)
  | Fatalf (err : String)
  deriving DecidableEq

/-- Whether an event is a `SetValue` on one of the characteristics. -/
def Event.isSetValue : Event → Bool
  | .SetCurrentTemperature _ => true
  | .SetCurrentRelativeHumidity _ => true
  | .SetCarbonDioxideDetected _ => true
  | .SetCarbonDioxideLevel _ => true
  | _ => false

/-- The sensor driver: each call returns Go's `(value, err)` pair and the
sensor's next state. -/
structure Sensor (σ : Type) where
  HasMeasurement : σ → (Bool × Option String) × σ
  GetMeasurement : σ → (Measurement × Option String) × σ

/-- The state the goroutines of `main` share. -/
structure World (σ : Type) where
  chars : Characteristics
  sensor : σ
  ctxDone : Bool
  trace : List Event

/-- Whether the process is still running or has ended with an exit status. -/
inductive Status where
  | running
  | exited (code : Nat)
  deriving DecidableEq

/-- Append one event to the trace. -/
def World.emit {σ : Type} (w : World σ) (e : Event) : World σ :=
  { w with trace := w.trace ++ [e] }

/-- Replace the characteristics. -/
def World.setChars {σ : Type} (w : World σ) (c : Characteristics) : World σ :=
  { w with chars := c }

/-- The call `temp.CurrentTemperature.SetValue(v)`: the library keeps the
current temperature between 0 and 100. -/
def World.SetCurrentTemperature {σ : Type} (w : World σ) (v : GoFloat) : World σ :=
  (w.setChars { w.chars with CurrentTemperature := clampFloat (.fin 0) (.fin 100) v }).emit
    (.SetCurrentTemperature v)

/-- The call `hum.CurrentRelativeHumidity.SetValue(v)`: the library keeps the
relative humidity between 0 and 100. -/
def World.SetCurrentRelativeHumidity {σ : Type} (w : World σ) (v : GoFloat) : World σ :=
  (w.setChars { w.chars with CurrentRelativeHumidity := clampFloat (.fin 0) (.fin 100) v }).emit
    (.SetCurrentRelativeHumidity v)

/-- The call `co2.CarbonDioxideDetected.SetValue(v)`; the program passes 0 or 1,
the two values of the characteristic. -/
def World.SetCarbonDioxideDetected {σ : Type} (w : World σ) (v : Int) : World σ :=
  (w.setChars { w.chars with CarbonDioxideDetected := v }).emit (.SetCarbonDioxideDetected v)

/-- The call `co2Level.SetValue(v)`: the library keeps the carbon dioxide
level between 0 and 100000. -/
def World.SetCarbonDioxideLevel {σ : Type} (w : World σ) (v : GoFloat) : World σ :=
  (w.setChars { w.chars with CarbonDioxideLevel := clampFloat (.fin 0) (.fin 100000) v }).emit
    (.SetCarbonDioxideLevel v)

/-! ## The polling goroutine (lines 101-135) -/

/-- Lines 115-130: publish one fetched measurement. -/
def publish {σ : Type} (w : World σ) (m : Measurement) : World σ :=
  let w := w.SetCurrentTemperature (float64 m.Temperature)
  let w := w.SetCurrentRelativeHumidity (float64 m.Humidity)
  let w := if m.CO2.gt (.fin 1500) then w.SetCarbonDioxideDetected 1
           else w.SetCarbonDioxideDetected 0
  let w := w.SetCarbonDioxideLevel (float64 m.CO2)
  w.emit (.Printf m.Temperature m.Humidity m.CO2)

/-- One iteration of the `for` loop, lines 103-133. -/
def pollCycle {σ : Type} (cfg : Config) (S : Sensor σ) (w : World σ) : World σ × Status :=
  let w := w.emit (.Sleep (sleepDuration cfg.interval))
  let r := S.HasMeasurement w.sensor
  let w := { w with sensor := r.2 }.emit .HasMeasurement
  match r.1.2 with
  | some err => (w.emit (.Fatalf err), .exited 1)
  | none =>
    if r.1.1 then
      let g := S.GetMeasurement w.sensor
      let w := { w with sensor := g.2 }.emit .GetMeasurement
      match g.1.2 with
      | some err => (w.emit (.Fatalf err), .exited 1)
      | none => (publish w g.1.1, .running)
    else
      (w.emit (.Print "Failed to get a measurement..."), .running)

/-- The first `n` iterations of the `for` loop; the loop ends only when an
iteration ends the process. -/
def pollLoop {σ : Type} (cfg : Config) (S : Sensor σ) : Nat → World σ → World σ × Status
  | 0, w => (w, .running)
  | n + 1, w =>
    match pollCycle cfg S w with
    | (w1, .running) => pollLoop cfg S n w1
    | (w1, .exited c) => (w1, .exited c)

/-- Line 98: `sensor.StartMeasurements(uint16(interval))`. -/
def startMeasurements {σ : Type} (cfg : Config) (w : World σ) : World σ :=
  w.emit (.StartMeasurements (uint16 cfg.interval))

/-! ## A scripted sensor

A run of the polling loop sees the sensor only through the replies to its
calls, so a finite run is fixed by the list of replies, one per iteration. -/

/-- What the sensor answers during one iteration of the loop. -/
inductive Reply where
  -- `HasMeasurement` returns `(false, nil)`
  | notReady
  -- `HasMeasurement` returns `(true, nil)`, `GetMeasurement` returns `(m, nil)`
  | ready (m : Measurement)
  -- `HasMeasurement` returns `(b, err)` with `err != nil`
  | hasError (b : Bool) (err : String)
  -- `HasMeasurement` returns `(true, nil)`, `GetMeasurement` returns `(m, err)`
  -- with `err != nil`
  | getError (m : Measurement) (err : String)
  deriving DecidableEq

/-- The measurement of an exhausted or misused script. -/
def noMeasurement : Measurement :=
  { CO2 := .fin 0, Temperature := .fin 0, Humidity := .fin 0 }

/-- A sensor that answers from a list of replies. -/
def scripted : Sensor (List Reply) where
  HasMeasurement
    | [] => ((false, none), [])
    | .notReady :: rest => ((false, none), rest)
    | .ready m :: rest => ((true, none), .ready m :: rest)
    | .hasError b err :: rest => ((b, some err), rest)
    | .getError m err :: rest => ((true, none), .getError m err :: rest)
  GetMeasurement
    | .ready m :: rest => ((m, none), rest)
    | .getError m err :: rest => ((m, some err), rest)
    | rest => ((noMeasurement, some "no measurement"), rest)

/-- The measurement of the last `ready` reply of a script, if there is one. -/
def lastReady : List Reply → Option Measurement
  | [] => none
  | .ready m :: rest => (lastReady rest).orElse (fun _ => some m)
  | _ :: rest => lastReady rest

/-- A script of `ready` and `notReady` replies only. -/
def Reply.isPoll : Reply → Bool
  | .notReady => true
  | .ready _ => true
  | _ => false

/-! ## Flags (lines 33-38)

`init` registers three flags on the standard library's command-line flag
set and parses `os.Args[1:]`.  The parser below follows the standard
library's `FlagSet.parseOne` and `FlagSet.Parse` for non-boolean flags and
the `ExitOnError` policy; the function that reads an integer is a parameter,
and `strconvParseInt` below is the one the standard library uses. -/

/-- The defaults of the three registered flags. -/
def defaults : Config := { db := "./db", i2c := "", interval := 5 }

/-- The standard library's flag set: the variables, the names of the flags
that were set, and the arguments not yet consumed. -/
structure FlagSet where
  vars : Config
  actual : List String
  args : List String
  deriving DecidableEq

/-- The names registered by lines 34-36. -/
def formal : List String := ["db", "i2c", "interval"]

/-- The method `Value.Set` of a registered flag: `none` when the value is
rejected. -/
def setValue (ParseInt : String → Option Int) (name value : String) (c : Config) :
    Option Config :=
  if name = "db" then some { c with db := value }
  else if name = "i2c" then some { c with i2c := value }
  else if name = "interval" then (ParseInt value).map (fun n => { c with interval := n })
  else none

/-- Split `name=value` at the first `=` that is not the first character. -/
def splitEquals : List Char → List Char × Option (List Char)
  | [] => ([], none)
  | c :: cs =>
    match cs.span (fun x => x != '=') with
    | (n, []) => (c :: n, none)
    | (n, _ :: v) => (c :: n, some v)

/-- The result of `parseOne`. -/
inductive ParseOne where
  -- A flag was consumed: `(true, nil)`
  | seen (f : FlagSet)
  -- No flag left: `(false, nil)`
  | done (f : FlagSet)
  -- The help flag: `(false, ErrHelp)`
  | help
  -- Any other error
  | failed (msg : String)
  deriving DecidableEq

/-- The second half of the standard library's `FlagSet.parseOne`: `name` is
the argument without its leading minus signs, `rest` the arguments after
it. -/
def parseFlag (ParseInt : String → Option Int) (f : FlagSet) (rest : List String)
    (name : List Char) : ParseOne :=
  match name with
  | [] => .failed "bad flag syntax"
  | '-' :: _ => .failed "bad flag syntax"
  | '=' :: _ => .failed "bad flag syntax"
  | _ =>
    let nv := splitEquals name
    let name := String.mk nv.1
    if name ∈ formal then
      let arg : Option (String × List String) :=
        match nv.2, rest with
        | some v, _ => some (String.mk v, rest)
        | none, v :: rest1 => some (v, rest1)
        | none, [] => none
      match arg with
      | none => .failed "flag needs an argument"
      | some (value, rest1) =>
        match setValue ParseInt name value f.vars with
        | none => .failed "invalid value"
        | some c => .seen { vars := c, actual := name :: f.actual, args := rest1 }
    else if name = "help" ∨ name = "h" then .help
    else .failed "flag provided but not defined"

/-- The standard library's `FlagSet.parseOne`: an argument shorter than two
characters or not starting with a minus sign ends the flags, and so does
`--`. -/
def parseOne (ParseInt : String → Option Int) (f : FlagSet) : ParseOne :=
  match f.args with
  | [] => .done f
  | s :: rest =>
    match s.data with
    | '-' :: c :: cs =>
      if c = '-' ∧ cs = [] then .done { f with args := rest }
      else parseFlag ParseInt f rest (if c = '-' then cs else c :: cs)
    | _ => .done f

/-- How `flag.Parse()` ends under `ExitOnError`: it returns, or the process
exits with a status. -/
inductive Parsed where
  | ok (f : FlagSet)
  | exit (code : Nat)
  deriving DecidableEq

/-- The loop of `FlagSet.Parse` under `ExitOnError`, for at most `fuel`
flags.  `none` when the fuel is used up. -/
def parseLoop (ParseInt : String → Option Int) : Nat → FlagSet → Option Parsed
  | 0, _ => none
  | fuel + 1, f =>
    match parseOne ParseInt f with
    | .seen f1 => parseLoop ParseInt fuel f1
    | .done f1 => some (.ok f1)
    | .help => some (.exit 0)
    | .failed _ => some (.exit 2)

/-- The standard library's `FlagSet.Parse`: every iteration of its loop but the
last consumes at least one argument, so one more than the number of arguments
is enough. -/
def Parse (ParseInt : String → Option Int) (f : FlagSet) : Option Parsed :=
  parseLoop ParseInt (f.args.length + 1) f

/-- The function `init` (lines 33-38) on the arguments `os.Args[1:]`: lines 34-36
register the three flags, which sets the variables to the defaults, and line 37
parses the command line. -/
def init (ParseInt : String → Option Int) (args : List String) : Option Parsed :=
  Parse ParseInt { vars := defaults, actual := [], args := args }

/-- Every flag that was not set on the command line holds its default. -/
def FlagSet.untouched (f : FlagSet) : Prop :=
  ("db" ∉ f.actual → f.vars.db = "./db")
    ∧ ("i2c" ∉ f.actual → f.vars.i2c = "")
    ∧ ("interval" ∉ f.actual → f.vars.interval = 5)

/-! ### The integer syntax of `strconv.ParseInt(s, 0, bitSize)`

The flag of line 36 reads its value with the standard library's
`strconv.ParseInt` in base 0: an optional sign, an optional base prefix
(`0b`, `0o`, `0x`, or a leading `0` for octal), digits that underscores may
separate, and a value that fits the bit size. -/

/-- The value of a digit or letter, as in `strconv.ParseUint`. -/
def digitValue (c : Char) : Option Nat :=
  if '0' ≤ c ∧ c ≤ '9' then some (c.toNat - 48)
  else if 'a' ≤ c ∧ c ≤ 'z' then some (c.toNat - 97 + 10)
  else if 'A' ≤ c ∧ c ≤ 'Z' then some (c.toNat - 65 + 10)
  else none

/-- The base chosen by `strconv.ParseUint` in base 0, and the digits left
after the prefix. -/
def basePrefix : List Char → Nat × List Char
  | '0' :: c :: d :: rest =>
    if c = 'b' ∨ c = 'B' then (2, d :: rest)
    else if c = 'o' ∨ c = 'O' then (8, d :: rest)
    else if c = 'x' ∨ c = 'X' then (16, d :: rest)
    else (8, c :: d :: rest)
  | '0' :: rest => (8, rest)
  | s => (10, s)

/-- The digit loop of `strconv.ParseUint` in base 0: the value read so far and
whether an underscore was seen; `none` on a character that is no digit of the
base. -/
def parseDigits (base : Nat) : List Char → Nat × Bool → Option (Nat × Bool)
  | [], acc => some acc
  | c :: cs, (n, underscores) =>
    if c = '_' then parseDigits base cs (n, true)
    else
      match digitValue c with
      | none => none
      | some d => if base ≤ d then none else parseDigits base cs (n * base + d, underscores)

/-- The loop of `strconv.underscoreOK`; `saw` is the kind of the last character:
`'^'` for the beginning, `'0'` for a digit, `'_'` for an underscore, `'!'` for
anything else. -/
def underscoreLoop (hex : Bool) : Char → List Char → Bool
  | saw, [] => saw != '_'
  | saw, c :: cs =>
    if ('0' ≤ c ∧ c ≤ '9') ∨ (hex = true ∧ (('a' ≤ c ∧ c ≤ 'f') ∨ ('A' ≤ c ∧ c ≤ 'F'))) then
      underscoreLoop hex '0' cs
    else if c = '_' then
      if saw != '0' then false else underscoreLoop hex '_' cs
    else if saw = '_' then false
    else underscoreLoop hex '!' cs

/-- The standard library's `strconv.underscoreOK`: underscores only separate
digits, or the base prefix from the digits. -/
def underscoreOK (s : List Char) : Bool :=
  let s := match s with
    | '-' :: cs => cs
    | '+' :: cs => cs
    | cs => cs
  match s with
  | '0' :: c :: cs =>
    if c = 'b' ∨ c = 'B' ∨ c = 'o' ∨ c = 'O' then underscoreLoop false '0' cs
    else if c = 'x' ∨ c = 'X' then underscoreLoop true '0' cs
    else underscoreLoop false '^' s
  | _ => underscoreLoop false '^' s

/-- The standard library's `strconv.ParseUint(s, 0, 64)`, without the bound on
the value, which `strconvParseInt` checks. -/
def strconvParseUint (s : List Char) : Option Nat :=
  match s with
  | [] => none
  | _ =>
    match parseDigits (basePrefix s).1 (basePrefix s).2 (0, false) with
    | none => none
    | some (n, underscores) => if underscores && !underscoreOK s then none else some n

/-- The standard library's `strconv.ParseInt(s, 0, bitSize)`: the value, or
`none` for a syntax or range error. -/
def strconvParseInt (bitSize : Nat) (s : String) : Option Int :=
  match s.data with
  | [] => none
  | c :: cs =>
    match strconvParseUint (if c = '+' ∨ c = '-' then cs else c :: cs) with
    | none => none
    | some un =>
      if c = '-' then
        if 2 ^ (bitSize - 1) < un then none else some (-(un : Int))
      else
        if 2 ^ (bitSize - 1) ≤ un then none else some (un : Int)

/-! ## The signal goroutine (lines 72-83) -/

/-- Where the signal goroutine stands. -/
inductive SignalPc where
  -- Blocked in `<-c` (line 78)
  | receive
  -- About to run `signal.Stop(c)` (line 80)
  | stop
  -- About to run `cancel()` (line 82)
  | cancel
  -- Returned
  | returned
  deriving DecidableEq

/-- The signal goroutine together with what it acts on. -/
structure SignalTask where
  pc : SignalPc
  -- Signals are relayed to `c` (from `signal.Notify` until `signal.Stop`)
  notifying : Bool
  -- The number of signals received from `c`
  received : Nat
  -- The number of calls of `cancel`
  cancelCalls : Nat
  deriving DecidableEq

/-- What can happen to the signal goroutine: a signal is sent on `c`, or the
goroutine runs its next statement. -/
inductive SignalInput where
  | signal
  | run
  deriving DecidableEq

/-- The goroutine after lines 72-76, blocked in the receive. -/
def SignalTask.start : SignalTask :=
  { pc := .receive, notifying := true, received := 0, cancelCalls := 0 }

/-- One step of the signal goroutine.  A signal sent on `c` is received only
by the pending receive of line 78. -/
def SignalTask.step (t : SignalTask) : SignalInput → SignalTask
  | .signal =>
    match t.pc with
    | .receive => if t.notifying then { t with pc := .stop, received := t.received + 1 } else t
    | _ => t
  | .run =>
    match t.pc with
    | .receive => t
    | .stop => { t with pc := .cancel, notifying := false }
    | .cancel => { t with pc := .returned, cancelCalls := t.cancelCalls + 1 }
    | .returned => t

/-- Run the signal goroutine over a sequence of inputs. -/
def SignalTask.steps (t : SignalTask) (inputs : List SignalInput) : SignalTask :=
  inputs.foldl SignalTask.step t

/-- The shared context is done once `cancel` has been called. -/
def SignalTask.ctxDone (t : SignalTask) : Bool := decide (0 < t.cancelCalls)

/-! ## Concrete inputs -/

/-- A world with all characteristics at zero, an empty trace and the given
sensor state. -/
def World.initial {σ : Type} (sensor : σ) : World σ :=
  { chars := { CurrentTemperature := .fin 0, CurrentRelativeHumidity := .fin 0,
               CarbonDioxideDetected := 0, CarbonDioxideLevel := .fin 0 }
    sensor := sensor
    ctxDone := false
    trace := [] }

/-- The reading 22.0 °C, 45 %, 1200 ppm. -/
def reading1200 : Measurement :=
  { CO2 := .fin 1200, Temperature := .fin 22, Humidity := .fin 45 }

/-- The reading 22.1 °C, 44 %, 1600 ppm; the temperature is the `float32`
nearest to 22.1, which is 11586765 / 2^19. -/
def reading1600 : Measurement :=
  { CO2 := .fin 1600, Temperature := .fin (11586765 / 524288), Humidity := .fin 44 }

/-- The reading -5 °C, 40 %, 800 ppm. -/
def readingCold : Measurement :=
  { CO2 := .fin 800, Temperature := .fin (-5), Humidity := .fin 40 }

/-- The reading 22 °C, 45 %, 200000 ppm. -/
def readingHigh : Measurement :=
  { CO2 := .fin 200000, Temperature := .fin 22, Humidity := .fin 45 }

/-- The reading 21.5 °C, 40 %, 1500 ppm. -/
def reading1500 : Measurement :=
  { CO2 := .fin 1500, Temperature := .fin (43 / 2), Humidity := .fin 40 }

/-! ## The polling goroutine: one iteration -/

section Cycle

variable {σ : Type}

/-- The characteristics after `publish`: the four cells hold what lines
116-127 pass to `SetValue`, the three float values limited to their ranges. -/
theorem publish_chars (w : World σ) (m : Measurement) :
    (publish w m).chars =
      { CurrentTemperature := clampFloat (.fin 0) (.fin 100) (float64 m.Temperature)
        CurrentRelativeHumidity := clampFloat (.fin 0) (.fin 100) (float64 m.Humidity)
        CarbonDioxideDetected := if m.CO2.gt (.fin 1500) then 1 else 0
        CarbonDioxideLevel := clampFloat (.fin 0) (.fin 100000) (float64 m.CO2) } := by
  unfold publish
  by_cases h : m.CO2.gt (.fin 1500) = true <;>
    simp [h, World.emit, World.setChars, World.SetCurrentTemperature,
      World.SetCurrentRelativeHumidity, World.SetCarbonDioxideDetected,
      World.SetCarbonDioxideLevel]

/-- The events of `publish`, in the order of lines 116-130. -/
theorem publish_trace (w : World σ) (m : Measurement) :
    (publish w m).trace = w.trace ++
      [ .SetCurrentTemperature (float64 m.Temperature),
        .SetCurrentRelativeHumidity (float64 m.Humidity),
        .SetCarbonDioxideDetected (if m.CO2.gt (.fin 1500) then 1 else 0),
        .SetCarbonDioxideLevel (float64 m.CO2),
        .Printf m.Temperature m.Humidity m.CO2 ] := by
  unfold publish
  by_cases h : m.CO2.gt (.fin 1500) = true <;>
    simp [h, World.emit, World.setChars, World.SetCurrentTemperature,
      World.SetCurrentRelativeHumidity, World.SetCarbonDioxideDetected,
      World.SetCarbonDioxideLevel]

/-- What `publish` leaves alone: the sensor and the context. -/
theorem publish_frame (w : World σ) (m : Measurement) :
    (publish w m).sensor = w.sensor ∧ (publish w m).ctxDone = w.ctxDone := by
  unfold publish
  by_cases h : m.CO2.gt (.fin 1500) = true <;>
    simp [h, World.emit, World.setChars, World.SetCurrentTemperature,
      World.SetCurrentRelativeHumidity, World.SetCarbonDioxideDetected,
      World.SetCarbonDioxideLevel]

/-- An iteration whose two sensor calls succeed publishes the measurement. -/
theorem pollCycle_ready (cfg : Config) (S : Sensor σ) (w : World σ)
    (m : Measurement) (s1 s2 : σ)
    (hHas : S.HasMeasurement w.sensor = ((true, none), s1))
    (hGet : S.GetMeasurement s1 = ((m, none), s2)) :
    pollCycle cfg S w =
      (publish { w with sensor := s2, trace := w.trace ++
          [.Sleep (sleepDuration cfg.interval), .HasMeasurement, .GetMeasurement] } m,
        .running) := by
  simp [pollCycle, World.emit, hHas, hGet]

/-- An iteration in which the sensor is not ready. -/
theorem pollCycle_notReady (cfg : Config) (S : Sensor σ) (w : World σ) (s1 : σ)
    (hHas : S.HasMeasurement w.sensor = ((false, none), s1)) :
    pollCycle cfg S w =
      ({ w with sensor := s1, trace := w.trace ++
          [.Sleep (sleepDuration cfg.interval), .HasMeasurement,
           .Print "Failed to get a measurement..."] },
        .running) := by
  simp [pollCycle, World.emit, hHas]

/-- An iteration in which `HasMeasurement` reports an error. -/
theorem pollCycle_hasError (cfg : Config) (S : Sensor σ) (w : World σ)
    (b : Bool) (err : String) (s1 : σ)
    (hHas : S.HasMeasurement w.sensor = ((b, some err), s1)) :
    pollCycle cfg S w =
      ({ w with sensor := s1, trace := w.trace ++
          [.Sleep (sleepDuration cfg.interval), .HasMeasurement, .Fatalf err] },
        .exited 1) := by
  simp [pollCycle, World.emit, hHas]

/-- An iteration in which `GetMeasurement` reports an error. -/
theorem pollCycle_getError (cfg : Config) (S : Sensor σ) (w : World σ)
    (m : Measurement) (err : String) (s1 s2 : σ)
    (hHas : S.HasMeasurement w.sensor = ((true, none), s1))
    (hGet : S.GetMeasurement s1 = ((m, some err), s2)) :
    pollCycle cfg S w =
      ({ w with sensor := s2, trace := w.trace ++
          [.Sleep (sleepDuration cfg.interval), .HasMeasurement, .GetMeasurement,
           .Fatalf err] },
        .exited 1) := by
  simp [pollCycle, World.emit, hHas, hGet]

/-- Once an iteration has ended the process, no further iteration runs. -/
theorem pollLoop_exited (cfg : Config) (S : Sensor σ) (n : Nat) (w w1 : World σ) (c : Nat)
    (h : pollCycle cfg S w = (w1, .exited c)) :
    pollLoop cfg S (n + 1) w = (w1, .exited c) := by
  simp [pollLoop, h]

/-- After an iteration that keeps running, the loop goes on from its state. -/
theorem pollLoop_running (cfg : Config) (S : Sensor σ) (n : Nat) (w w1 : World σ)
    (h : pollCycle cfg S w = (w1, .running)) :
    pollLoop cfg S (n + 1) w = pollLoop cfg S n w1 := by
  simp [pollLoop, h]

/-- Every iteration begins with the sleep of line 103, and the readiness check
of line 105 comes right after it. -/
theorem pollCycle_begins_with_sleep (cfg : Config) (S : Sensor σ) (w : World σ) :
    ∃ rest, (pollCycle cfg S w).1.trace = w.trace ++
      .Sleep (sleepDuration cfg.interval) :: .HasMeasurement :: rest := by
  rcases hHas : S.HasMeasurement w.sensor with ⟨⟨ready, err⟩, s1⟩
  cases err with
  | some e => exact ⟨_, by rw [pollCycle_hasError cfg S w ready e s1 hHas]⟩
  | none =>
    cases ready with
    | false => exact ⟨_, by rw [pollCycle_notReady cfg S w s1 hHas]⟩
    | true =>
      rcases hGet : S.GetMeasurement s1 with ⟨⟨m, err⟩, s2⟩
      cases err with
      | some e => exact ⟨_, by rw [pollCycle_getError cfg S w m e s1 s2 hHas hGet]⟩
      | none =>
        refine ⟨[ .GetMeasurement,
          .SetCurrentTemperature (float64 m.Temperature),
          .SetCurrentRelativeHumidity (float64 m.Humidity),
          .SetCarbonDioxideDetected (if m.CO2.gt (.fin 1500) then 1 else 0),
          .SetCarbonDioxideLevel (float64 m.CO2),
          .Printf m.Temperature m.Humidity m.CO2 ], ?_⟩
        rw [pollCycle_ready cfg S w m s1 s2 hHas hGet, publish_trace]
        simp only [List.append_assoc, List.cons_append, List.nil_append]

end Cycle

/-! ## The polling goroutine: claims about one iteration -/

section CycleClaims

variable {σ : Type}

/-- C1: in a poll cycle whose `GetMeasurement` succeeds with the reading `m`,
the cycle writes `CarbonDioxideDetected` exactly once, the value written is 1
if and only if `m.CO2 > 1500` and is 0 otherwise, and a reading of exactly 1500
writes 0. -/
theorem detected_iff_above_1500 (cfg : Config) (S : Sensor σ) (w : World σ)
    (m : Measurement) (s1 s2 : σ)
    (hHas : S.HasMeasurement w.sensor = ((true, none), s1))
    (hGet : S.GetMeasurement s1 = ((m, none), s2)) :
    (pollCycle cfg S w).1.trace = w.trace ++
        [ .Sleep (sleepDuration cfg.interval), .HasMeasurement, .GetMeasurement,
          .SetCurrentTemperature (float64 m.Temperature),
          .SetCurrentRelativeHumidity (float64 m.Humidity),
          .SetCarbonDioxideDetected (if m.CO2.gt (.fin 1500) then 1 else 0),
          .SetCarbonDioxideLevel (float64 m.CO2),
          .Printf m.Temperature m.Humidity m.CO2 ]
      ∧ ((pollCycle cfg S w).1.chars.CarbonDioxideDetected = 1 ↔ m.CO2.gt (.fin 1500) = true)
      ∧ ((pollCycle cfg S w).1.chars.CarbonDioxideDetected = 0 ↔ m.CO2.gt (.fin 1500) = false)
      ∧ (∀ q : ℚ, m.CO2 = .fin q →
          ((pollCycle cfg S w).1.chars.CarbonDioxideDetected = 1 ↔ 1500 < q))
      ∧ (m.CO2 = .fin 1500 → (pollCycle cfg S w).1.chars.CarbonDioxideDetected = 0) := by
  rw [pollCycle_ready cfg S w m s1 s2 hHas hGet]
  simp only [publish_chars, publish_trace]
  refine ⟨by simp, ?_, ?_, ?_, ?_⟩
  · by_cases h : m.CO2.gt (.fin 1500) = true <;> simp [h]
  · by_cases h : m.CO2.gt (.fin 1500) = true <;> simp [h]
  · intro q hq
    by_cases h : (1500 : ℚ) < q <;> simp [hq, GoFloat.gt, h]
  · intro hq
    simp [hq, GoFloat.gt]

/-- The witness of C1: the reading 1600 ppm from the scripted sensor. -/
theorem detected_iff_above_1500_witness :
    (pollCycle defaults scripted (World.initial [.ready reading1600])).1.chars.CarbonDioxideDetected
      = 1 := by
  have h := detected_iff_above_1500 defaults scripted (World.initial [.ready reading1600])
    reading1600 [.ready reading1600] [] rfl rfl
  exact h.2.1.mpr (by decide)

/-- C3: a poll cycle in which `HasMeasurement` returns `(false, nil)` leaves the
four characteristics unchanged, makes no call of `GetMeasurement` (the sensor is
left in the state `HasMeasurement` returned), prints exactly the skip line, and
the loop goes on with the next iteration. -/
theorem notReady_skips (cfg : Config) (S : Sensor σ) (w : World σ) (s1 : σ)
    (hHas : S.HasMeasurement w.sensor = ((false, none), s1)) :
    (pollCycle cfg S w).1.chars = w.chars
      ∧ (pollCycle cfg S w).1.sensor = s1
      ∧ (pollCycle cfg S w).1.trace = w.trace ++
          [ .Sleep (sleepDuration cfg.interval), .HasMeasurement,
            .Print "Failed to get a measurement..." ]
      ∧ (pollCycle cfg S w).2 = .running
      ∧ ∀ n : Nat, pollLoop cfg S (n + 1) w = pollLoop cfg S n (pollCycle cfg S w).1 := by
  have h := pollCycle_notReady cfg S w s1 hHas
  refine ⟨by rw [h], by rw [h], by rw [h], by rw [h], ?_⟩
  intro n
  exact pollLoop_running cfg S n w _ (by rw [h])

/-- The witness of C3: the scripted sensor with a `notReady` reply. -/
theorem notReady_skips_witness :
    (pollCycle defaults scripted (World.initial [.notReady, .ready reading1600])).1.chars
        = (World.initial [Reply.notReady, .ready reading1600]).chars
      ∧ (pollCycle defaults scripted (World.initial [.notReady, .ready reading1600])).1.trace
        = [ .Sleep 5000000000, .HasMeasurement, .Print "Failed to get a measurement..." ] := by
  have h := notReady_skips defaults scripted
    (World.initial [.notReady, .ready reading1600]) [.ready reading1600] rfl
  refine ⟨h.1, ?_⟩
  rw [h.2.2.1]
  decide

/-- C4: a poll cycle in which `HasMeasurement` reports an error, or in which
`HasMeasurement` returns `(true, nil)` and `GetMeasurement` reports an error,
ends the process with status 1: the characteristics are unchanged, the cycle
makes no `SetValue` call, and however many iterations the loop is given, none
runs after this one. -/
theorem sensor_error_is_fatal (cfg : Config) (S : Sensor σ) (w : World σ)
    (hErr : (∃ b err s1, S.HasMeasurement w.sensor = ((b, some err), s1))
      ∨ (∃ m err s1 s2, S.HasMeasurement w.sensor = ((true, none), s1)
          ∧ S.GetMeasurement s1 = ((m, some err), s2))) :
    (pollCycle cfg S w).2 = .exited 1
      ∧ (pollCycle cfg S w).1.chars = w.chars
      ∧ (∃ events, (pollCycle cfg S w).1.trace = w.trace ++ events
          ∧ ∀ e ∈ events, e.isSetValue = false)
      ∧ ∀ n : Nat, pollLoop cfg S (n + 1) w = pollCycle cfg S w := by
  rcases hErr with ⟨b, err, s1, hHas⟩ | ⟨m, err, s1, s2, hHas, hGet⟩
  · have h := pollCycle_hasError cfg S w b err s1 hHas
    refine ⟨by rw [h], by rw [h], ⟨_, by rw [h], ?_⟩, ?_⟩
    · intro e he
      simp only [List.mem_cons, List.mem_singleton, List.not_mem_nil, or_false] at he
      rcases he with rfl | rfl | rfl <;> rfl
    · intro n
      rw [h]
      exact pollLoop_exited cfg S n w _ 1 h
  · have h := pollCycle_getError cfg S w m err s1 s2 hHas hGet
    refine ⟨by rw [h], by rw [h], ⟨_, by rw [h], ?_⟩, ?_⟩
    · intro e he
      simp only [List.mem_cons, List.mem_singleton, List.not_mem_nil, or_false] at he
      rcases he with rfl | rfl | rfl | rfl <;> rfl
    · intro n
      rw [h]
      exact pollLoop_exited cfg S n w _ 1 h

/-- The witness of C4: `GetMeasurement` fails, with two more replies waiting
that are never asked for. -/
theorem sensor_error_is_fatal_witness :
    pollLoop defaults scripted 3
        (World.initial [.getError reading1600 "crc", .ready reading1600, .ready reading1200])
      = pollCycle defaults scripted
        (World.initial [.getError reading1600 "crc", .ready reading1600, .ready reading1200])
      ∧ (pollCycle defaults scripted
        (World.initial [.getError reading1600 "crc", .ready reading1600, .ready reading1200])).2
        = .exited 1 := by
  have h := sensor_error_is_fatal defaults scripted
    (World.initial [.getError reading1600 "crc", .ready reading1600, .ready reading1200])
    (Or.inr ⟨reading1600, "crc", _, _, rfl, rfl⟩)
  exact ⟨h.2.2.2 2, h.1⟩

end CycleClaims

/-! ## The polling goroutine: runs over a script of replies -/

/-- The last `ready` reply of a script that ends in one. -/
theorem lastReady_append_ready (script : List Reply) (m : Measurement) :
    lastReady (script ++ [.ready m]) = some m := by
  induction script with
  | nil => rfl
  | cons r tl ih => cases r <;> simp [lastReady, ih]

/-- A script of `ready` and `notReady` replies is consumed one reply per
iteration, the loop keeps running, and the characteristics at the end are those
published for the last `ready` reply (the initial ones when there is none). -/
theorem pollLoop_script (cfg : Config) (script rest : List Reply)
    (hPoll : ∀ r ∈ script, r.isPoll = true) (w : World (List Reply))
    (hSensor : w.sensor = script ++ rest) :
    (pollLoop cfg scripted script.length w).2 = .running
      ∧ (pollLoop cfg scripted script.length w).1.sensor = rest
      ∧ (pollLoop cfg scripted script.length w).1.chars =
          match lastReady script with
          | some m =>
            { CurrentTemperature := clampFloat (.fin 0) (.fin 100) (float64 m.Temperature)
              CurrentRelativeHumidity := clampFloat (.fin 0) (.fin 100) (float64 m.Humidity)
              CarbonDioxideDetected := if m.CO2.gt (.fin 1500) then 1 else 0
              CarbonDioxideLevel := clampFloat (.fin 0) (.fin 100000) (float64 m.CO2) }
          | none => w.chars := by
  induction script generalizing w with
  | nil => exact ⟨rfl, by simpa using hSensor, rfl⟩
  | cons r tl ih =>
    have hTl : ∀ r ∈ tl, r.isPoll = true := fun x hx => hPoll x (List.mem_cons_of_mem _ hx)
    have hr : r.isPoll = true := hPoll r (List.mem_cons_self _ _)
    cases r with
    | notReady =>
      have hc := pollCycle_notReady cfg scripted w (tl ++ rest) (by rw [hSensor]; rfl)
      rw [List.length_cons, pollLoop_running cfg scripted tl.length w _ hc]
      have h := ih hTl { w with sensor := tl ++ rest, trace := w.trace ++
        [.Sleep (sleepDuration cfg.interval), .HasMeasurement,
         .Print "Failed to get a measurement..."] } rfl
      refine ⟨h.1, h.2.1, ?_⟩
      rw [h.2.2]
      simp [lastReady]
    | ready m =>
      have hc := pollCycle_ready cfg scripted w m (.ready m :: (tl ++ rest)) (tl ++ rest)
        (by rw [hSensor]; rfl) rfl
      rw [List.length_cons, pollLoop_running cfg scripted tl.length w _ hc]
      have h := ih hTl (publish { w with sensor := tl ++ rest, trace := w.trace ++
        [.Sleep (sleepDuration cfg.interval), .HasMeasurement, .GetMeasurement] } m)
        (publish_frame _ m).1
      refine ⟨h.1, h.2.1, ?_⟩
      rw [h.2.2]
      cases hl : lastReady tl with
      | none => simp [lastReady, hl, publish_chars]
      | some m1 => simp [lastReady, hl]
    | hasError b err => simp [Reply.isPoll] at hr
    | getError m err => simp [Reply.isPoll] at hr

/-- A finite value inside the range is stored as it is. -/
theorem clampFloat_fin (lo hi q : ℚ) (h0 : lo ≤ q) (h1 : q ≤ hi) :
    clampFloat (.fin lo) (.fin hi) (.fin q) = .fin q := by
  simp [clampFloat, GoFloat.gt, not_lt.mpr h0, not_lt.mpr h1]

/-- The claim C2 as stated fails: after a cycle that fetches -5 °C the
temperature characteristic holds 0, not -5. -/
theorem chars_hold_latest_counterexample :
    (pollLoop defaults scripted 1 (World.initial [.ready readingCold])).1.chars.CurrentTemperature
        = .fin 0
      ∧ readingCold.Temperature = .fin (-5)
      ∧ (pollLoop defaults scripted 1
          (World.initial [.ready readingCold])).1.chars.CurrentTemperature
        ≠ readingCold.Temperature := by
  decide

/-- C2, amended: along any run in which every cycle fetches a measurement, after
each cycle the temperature, humidity and CO2-level characteristics hold the
temperature, humidity and co2 of the measurement fetched in that cycle, each
limited to the range of its characteristic (0 to 100, 0 to 100, 0 to 100000);
a value inside the range is held exactly; and this is so whatever the
characteristics held at the start and whatever was fetched before. -/
theorem chars_hold_latest (cfg : Config) (w : World (List Reply))
    (earlier : List Measurement) (m : Measurement) (later : List Reply)
    (hSensor : w.sensor = earlier.map Reply.ready ++ .ready m :: later) :
    (pollLoop cfg scripted (earlier.length + 1) w).2 = .running
      ∧ (pollLoop cfg scripted (earlier.length + 1) w).1.chars.CurrentTemperature
          = clampFloat (.fin 0) (.fin 100) m.Temperature
      ∧ (pollLoop cfg scripted (earlier.length + 1) w).1.chars.CurrentRelativeHumidity
          = clampFloat (.fin 0) (.fin 100) m.Humidity
      ∧ (pollLoop cfg scripted (earlier.length + 1) w).1.chars.CarbonDioxideLevel
          = clampFloat (.fin 0) (.fin 100000) m.CO2
      ∧ (∀ q : ℚ, m.Temperature = .fin q → 0 ≤ q → q ≤ 100 →
          (pollLoop cfg scripted (earlier.length + 1) w).1.chars.CurrentTemperature
            = m.Temperature)
      ∧ (∀ q : ℚ, m.Humidity = .fin q → 0 ≤ q → q ≤ 100 →
          (pollLoop cfg scripted (earlier.length + 1) w).1.chars.CurrentRelativeHumidity
            = m.Humidity)
      ∧ (∀ q : ℚ, m.CO2 = .fin q → 0 ≤ q → q ≤ 100000 →
          (pollLoop cfg scripted (earlier.length + 1) w).1.chars.CarbonDioxideLevel
            = m.CO2) := by
  have h := pollLoop_script cfg (earlier.map Reply.ready ++ [.ready m]) later
    (by
      intro r hr
      simp only [List.mem_append, List.mem_map, List.mem_singleton] at hr
      rcases hr with ⟨x, _, rfl⟩ | rfl <;> rfl)
    w (by simp [hSensor])
  simp only [List.length_append, List.length_map, List.length_singleton,
    lastReady_append_ready] at h
  rw [h.2.2]
  refine ⟨h.1, rfl, rfl, rfl, ?_, ?_, ?_⟩
  · intro q hq h0 h1
    simp only [float64, hq]
    exact clampFloat_fin 0 100 q h0 h1
  · intro q hq h0 h1
    simp only [float64, hq]
    exact clampFloat_fin 0 100 q h0 h1
  · intro q hq h0 h1
    simp only [float64, hq]
    exact clampFloat_fin 0 100000 q h0 h1

/-- The witness of C2: 1200 ppm, then 1500 ppm, then 1600 ppm, all inside the
ranges; after the third cycle the characteristics hold the third
measurement. -/
theorem chars_hold_latest_witness :
    (pollLoop defaults scripted 3
        (World.initial [.ready reading1200, .ready reading1500, .ready reading1600])).1.chars.CurrentTemperature
        = .fin (11586765 / 524288)
      ∧ (pollLoop defaults scripted 3
        (World.initial [.ready reading1200, .ready reading1500, .ready reading1600])).1.chars.CurrentRelativeHumidity
        = .fin 44
      ∧ (pollLoop defaults scripted 3
        (World.initial [.ready reading1200, .ready reading1500, .ready reading1600])).1.chars.CarbonDioxideLevel
        = .fin 1600 := by
  have h := chars_hold_latest defaults
    (World.initial [.ready reading1200, .ready reading1500, .ready reading1600])
    [reading1200, reading1500] reading1600 [] rfl
  exact ⟨h.2.2.2.2.1 (11586765 / 524288) rfl (by norm_num) (by norm_num),
    h.2.2.2.2.2.1 44 rfl (by norm_num) (by norm_num),
    h.2.2.2.2.2.2 1600 rfl (by norm_num) (by norm_num)⟩

/-- The claim C5 as stated fails: after a cycle that fetches 200000 ppm the flag
is 1 but the CO2-level characteristic holds 100000, not 200000. -/
theorem detected_tracks_latest_counterexample :
    (pollLoop defaults scripted 1 (World.initial [.ready readingHigh])).1.chars.CarbonDioxideDetected
        = 1
      ∧ (pollLoop defaults scripted 1
          (World.initial [.ready readingHigh])).1.chars.CarbonDioxideLevel = .fin 100000
      ∧ readingHigh.CO2 = .fin 200000
      ∧ (pollLoop defaults scripted 1
          (World.initial [.ready readingHigh])).1.chars.CarbonDioxideLevel ≠ readingHigh.CO2 := by
  decide

/-- C5, amended: after any finite run of `ready` and `notReady` cycles with at
least one `ready` among them, the CO2 detected flag is 1 if and only if the co2
of the most recent fetched measurement exceeds 1500 and is 0 otherwise, and the
CO2 level is that co2 value limited to the range 0 to 100000 of the
characteristic, so exactly that value when it lies in the range. -/
theorem detected_tracks_latest (cfg : Config) (w : World (List Reply))
    (script : List Reply) (m : Measurement)
    (hSensor : w.sensor = script)
    (hPoll : ∀ r ∈ script, r.isPoll = true)
    (hLast : lastReady script = some m) :
    (pollLoop cfg scripted script.length w).2 = .running
      ∧ ((pollLoop cfg scripted script.length w).1.chars.CarbonDioxideDetected = 1
          ↔ m.CO2.gt (.fin 1500) = true)
      ∧ ((pollLoop cfg scripted script.length w).1.chars.CarbonDioxideDetected = 0
          ↔ m.CO2.gt (.fin 1500) = false)
      ∧ (pollLoop cfg scripted script.length w).1.chars.CarbonDioxideLevel
          = clampFloat (.fin 0) (.fin 100000) m.CO2
      ∧ (∀ q : ℚ, m.CO2 = .fin q → 0 ≤ q → q ≤ 100000 →
          (pollLoop cfg scripted script.length w).1.chars.CarbonDioxideLevel = m.CO2) := by
  have h := pollLoop_script cfg script [] hPoll w (by simp [hSensor])
  rw [hLast] at h
  rw [h.2.2]
  refine ⟨h.1, ?_, ?_, rfl, ?_⟩
  · by_cases hgt : m.CO2.gt (.fin 1500) = true <;> simp [hgt]
  · by_cases hgt : m.CO2.gt (.fin 1500) = true <;> simp [hgt]
  · intro q hq h0 h1
    simp only [float64, hq]
    exact clampFloat_fin 0 100000 q h0 h1

/-- The witness of C5, the scenario of the specification: 1200 ppm then
1600 ppm gives detected 0 and level 1200 after the first cycle, detected 1 and
level 1600 after the second. -/
theorem detected_tracks_latest_witness :
    ((pollLoop defaults scripted 1 (World.initial [.ready reading1200])).1.chars.CarbonDioxideDetected
        = 0
      ∧ (pollLoop defaults scripted 1 (World.initial [.ready reading1200])).1.chars.CarbonDioxideLevel
        = .fin 1200)
    ∧ ((pollLoop defaults scripted 2
          (World.initial [.ready reading1200, .ready reading1600])).1.chars.CarbonDioxideDetected
        = 1
      ∧ (pollLoop defaults scripted 2
          (World.initial [.ready reading1200, .ready reading1600])).1.chars.CarbonDioxideLevel
        = .fin 1600) := by
  have h1 := detected_tracks_latest defaults (World.initial [.ready reading1200])
    [.ready reading1200] reading1200 rfl (by decide) rfl
  have h2 := detected_tracks_latest defaults
    (World.initial [.ready reading1200, .ready reading1600])
    [.ready reading1200, .ready reading1600] reading1600 rfl (by decide) rfl
  exact ⟨⟨h1.2.2.1.mpr (by decide), h1.2.2.2.2 1200 rfl (by norm_num) (by norm_num)⟩,
    ⟨h2.2.1.mpr (by decide), h2.2.2.2.2 1600 rfl (by norm_num) (by norm_num)⟩⟩

/-- The flag is not latched: a reading above 1500 followed, after any number
of cycles without a measurement, by a reading of at most 1500 leaves the flag
at 0. -/
theorem detected_not_latched (cfg : Config) (w : World (List Reply))
    (high low : Measurement) (gap : Nat)
    (hSensor : w.sensor = .ready high :: (List.replicate gap .notReady ++ [.ready low]))
    (hLow : low.CO2.gt (.fin 1500) = false) :
    (pollLoop cfg scripted (gap + 2) w).1.chars.CarbonDioxideDetected = 0 := by
  have h := pollLoop_script cfg (.ready high :: (List.replicate gap .notReady ++ [.ready low])) []
    (by
      intro r hr
      simp only [List.mem_cons, List.mem_append, List.mem_replicate, List.mem_singleton,
        List.not_mem_nil, or_false] at hr
      rcases hr with rfl | ⟨_, rfl⟩ | rfl <;> rfl)
    w (by simp [hSensor])
  have hl : lastReady (.ready high :: (List.replicate gap .notReady ++ [.ready low]))
      = some low := lastReady_append_ready (.ready high :: List.replicate gap .notReady) low
  rw [hl] at h
  have hlen : (Reply.ready high :: (List.replicate gap .notReady ++ [.ready low])).length
      = gap + 2 := by simp
  rw [hlen] at h
  rw [h.2.2]
  simp [hLow]

/-! ## The polling goroutine and the context -/

section Context

variable {σ : Type}

/-- The function `publish` carries the context flag along without reading it. -/
theorem publish_ctx (w : World σ) (m : Measurement) (b : Bool) :
    publish { w with ctxDone := b } m = { publish w m with ctxDone := b } := by
  unfold publish
  by_cases h : m.CO2.gt (.fin 1500) = true <;>
    simp [h, World.emit, World.setChars, World.SetCurrentTemperature,
      World.SetCurrentRelativeHumidity, World.SetCarbonDioxideDetected,
      World.SetCarbonDioxideLevel]

/-- One iteration carries the context flag along without reading it. -/
theorem pollCycle_ctx (cfg : Config) (S : Sensor σ) (w : World σ) (b : Bool) :
    pollCycle cfg S { w with ctxDone := b } =
      ({ (pollCycle cfg S w).1 with ctxDone := b }, (pollCycle cfg S w).2) := by
  rcases hHas : S.HasMeasurement w.sensor with ⟨⟨ready, err⟩, s1⟩
  cases err with
  | some e =>
    rw [pollCycle_hasError cfg S w ready e s1 hHas,
      pollCycle_hasError cfg S { w with ctxDone := b } ready e s1 hHas]
  | none =>
    cases ready with
    | false =>
      rw [pollCycle_notReady cfg S w s1 hHas,
        pollCycle_notReady cfg S { w with ctxDone := b } s1 hHas]
    | true =>
      rcases hGet : S.GetMeasurement s1 with ⟨⟨m, err⟩, s2⟩
      cases err with
      | some e =>
        rw [pollCycle_getError cfg S w m e s1 s2 hHas hGet,
          pollCycle_getError cfg S { w with ctxDone := b } m e s1 s2 hHas hGet]
      | none =>
        rw [pollCycle_ready cfg S w m s1 s2 hHas hGet,
          pollCycle_ready cfg S { w with ctxDone := b } m s1 s2 hHas hGet]
        have h := publish_ctx { w with sensor := s2, trace := w.trace ++
          [.Sleep (sleepDuration cfg.interval), .HasMeasurement, .GetMeasurement] } m b
        exact Prod.ext h rfl

/-- One iteration leaves the context flag as it found it. -/
theorem pollCycle_keeps_ctx (cfg : Config) (S : Sensor σ) (w : World σ) :
    (pollCycle cfg S w).1.ctxDone = w.ctxDone := by
  rcases hHas : S.HasMeasurement w.sensor with ⟨⟨ready, err⟩, s1⟩
  cases err with
  | some e => rw [pollCycle_hasError cfg S w ready e s1 hHas]
  | none =>
    cases ready with
    | false => rw [pollCycle_notReady cfg S w s1 hHas]
    | true =>
      rcases hGet : S.GetMeasurement s1 with ⟨⟨m, err⟩, s2⟩
      cases err with
      | some e => rw [pollCycle_getError cfg S w m e s1 s2 hHas hGet]
      | none =>
        rw [pollCycle_ready cfg S w m s1 s2 hHas hGet]
        exact (publish_frame _ m).2

/-- The loop carries the context flag along without reading it. -/
theorem pollLoop_ctx (cfg : Config) (S : Sensor σ) (n : Nat) (w : World σ) (b : Bool) :
    pollLoop cfg S n { w with ctxDone := b } =
      ({ (pollLoop cfg S n w).1 with ctxDone := b }, (pollLoop cfg S n w).2) := by
  induction n generalizing w with
  | zero => rfl
  | succ n ih =>
    rcases hc : pollCycle cfg S w with ⟨w1, st⟩
    have hb := pollCycle_ctx cfg S w b
    rw [hc] at hb
    cases st with
    | running =>
      rw [pollLoop_running cfg S n w w1 hc, pollLoop_running cfg S n _ _ hb]
      exact ih w1
    | exited c =>
      rw [pollLoop_exited cfg S n w w1 c hc, pollLoop_exited cfg S n _ _ c hb]

/-- C10: a poll cycle does not depend on the cancellation context.  Whatever
the context flag is set to, one iteration (and any number of iterations) writes
the same characteristics, emits the same events (sensor calls, `SetValue`
calls, log lines), leaves the sensor in the same state and takes the same
decision to go on or to end the process; the flag itself is left as it was. -/
theorem poll_ignores_ctx (cfg : Config) (S : Sensor σ) (w : World σ) (b : Bool) (n : Nat) :
    ((pollCycle cfg S { w with ctxDone := b }).1.chars = (pollCycle cfg S w).1.chars
      ∧ (pollCycle cfg S { w with ctxDone := b }).1.trace = (pollCycle cfg S w).1.trace
      ∧ (pollCycle cfg S { w with ctxDone := b }).1.sensor = (pollCycle cfg S w).1.sensor
      ∧ (pollCycle cfg S { w with ctxDone := b }).2 = (pollCycle cfg S w).2
      ∧ (pollCycle cfg S { w with ctxDone := b }).1.ctxDone = b)
    ∧ ((pollLoop cfg S n { w with ctxDone := b }).1.chars = (pollLoop cfg S n w).1.chars
      ∧ (pollLoop cfg S n { w with ctxDone := b }).1.trace = (pollLoop cfg S n w).1.trace
      ∧ (pollLoop cfg S n { w with ctxDone := b }).1.sensor = (pollLoop cfg S n w).1.sensor
      ∧ (pollLoop cfg S n { w with ctxDone := b }).2 = (pollLoop cfg S n w).2
      ∧ (pollLoop cfg S n { w with ctxDone := b }).1.ctxDone = b) := by
  rw [pollCycle_ctx, pollLoop_ctx]
  exact ⟨⟨rfl, rfl, rfl, rfl, rfl⟩, ⟨rfl, rfl, rfl, rfl, rfl⟩⟩

/-- After the context is cancelled the loop still publishes: a cycle that
starts with the context done and fetches `m` writes `m` to the
characteristics (within their ranges). -/
theorem poll_after_cancel (cfg : Config) (S : Sensor σ) (w : World σ)
    (m : Measurement) (s1 s2 : σ)
    (hHas : S.HasMeasurement w.sensor = ((true, none), s1))
    (hGet : S.GetMeasurement s1 = ((m, none), s2)) :
    (pollCycle cfg S { w with ctxDone := true }).1.chars =
      { CurrentTemperature := clampFloat (.fin 0) (.fin 100) (float64 m.Temperature)
        CurrentRelativeHumidity := clampFloat (.fin 0) (.fin 100) (float64 m.Humidity)
        CarbonDioxideDetected := if m.CO2.gt (.fin 1500) then 1 else 0
        CarbonDioxideLevel := clampFloat (.fin 0) (.fin 100000) (float64 m.CO2) } := by
  rw [pollCycle_ready cfg S { w with ctxDone := true } m s1 s2 hHas hGet, publish_chars]

end Context

/-! ## The interval handed to the sensor and to `time.Sleep` -/

/-- The conversion `uint16(x)` is `x` modulo 65536. -/
theorem uint16_eq_emod (x : Int) : (uint16 x : Int) = x % 65536 := by
  unfold uint16
  exact Int.toNat_of_nonneg (Int.emod_nonneg x (by decide))

/-- On an interval from 0 to 65535 the sensor is started with the configured
interval. -/
theorem startMeasurements_in_range {σ : Type} (cfg : Config) (w : World σ)
    (h0 : 0 ≤ cfg.interval) (h1 : cfg.interval < 65536) :
    (startMeasurements cfg w).trace = w.trace ++ [.StartMeasurements cfg.interval.toNat] := by
  unfold startMeasurements World.emit uint16
  rw [Int.emod_eq_of_lt h0 h1]

/-- An instance of `startMeasurements_in_range`: the default interval. -/
theorem startMeasurements_in_range_witness :
    (startMeasurements defaults (World.initial ())).trace = [.StartMeasurements 5] :=
  startMeasurements_in_range defaults (World.initial ()) (by decide) (by decide)

/-- C6, at `-interval 65541`: the sensor is started with an interval of 5
seconds, not 65541. -/
theorem startMeasurements_truncates :
    (startMeasurements { defaults with interval := 65541 } (World.initial ())).trace
        = [.StartMeasurements 5]
      ∧ (5 : Int) ≠ ({ defaults with interval := 65541 } : Config).interval
      ∧ inIntRange 32 65541 := by
  decide

/-- A negative interval wraps as well: `-interval -1` starts the sensor with an
interval of 65535 seconds. -/
theorem startMeasurements_negative :
    (startMeasurements { defaults with interval := -1 } (World.initial ())).trace
      = [.StartMeasurements 65535] := by
  decide

/-- The wrap into `int64` keeps a value that is in range. -/
theorem wrapInt64_of_inRange (x : Int) (h : inIntRange 64 x) : wrapInt64 x = x := by
  unfold inIntRange at h
  unfold wrapInt64
  have h1 : (0 : Int) ≤ x + 2 ^ 63 := by norm_num at h ⊢; omega
  have h2 : x + 2 ^ 63 < (2 : Int) ^ 64 := by norm_num at h ⊢; omega
  rw [Int.emod_eq_of_lt h1 h2]
  ring

/-- While the nanosecond count fits `int64` (an interval between -9223372036
and 9223372036 seconds) the loop sleeps exactly `interval` seconds. -/
theorem sleepDuration_exact (interval : Int)
    (h0 : -9223372036 ≤ interval) (h1 : interval ≤ 9223372036) :
    sleepDuration interval = interval * 1000000000 := by
  unfold sleepDuration Duration Second
  rw [wrapInt64_of_inRange interval (by unfold inIntRange; norm_num; omega)]
  rw [wrapInt64_of_inRange _ (by unfold inIntRange; norm_num; omega)]
  ring

/-- An instance of `sleepDuration_exact`: the default interval. -/
theorem sleepDuration_exact_witness : sleepDuration 5 = 5 * 1000000000 :=
  sleepDuration_exact 5 (by decide) (by decide)

/-- Where Go's `int` has 32 bits every interval is slept exactly. -/
theorem sleepDuration_exact_int32 (interval : Int) (h : inIntRange 32 interval) :
    sleepDuration interval = interval * 1000000000 := by
  unfold inIntRange at h
  exact sleepDuration_exact interval (by norm_num at h; omega) (by norm_num at h; omega)

/-- An instance of `sleepDuration_exact_int32`: the largest 32-bit interval. -/
theorem sleepDuration_exact_int32_witness :
    sleepDuration 2147483647 = 2147483647 * 1000000000 :=
  sleepDuration_exact_int32 2147483647 (by decide)

/-- C7, at `-interval 9223372037` where Go's `int` has 64 bits: the duration
passed to `time.Sleep` is negative, not 9223372037 seconds, and it is the first
event of the poll cycle. -/
theorem sleepDuration_overflows :
    inIntRange 64 9223372037
      ∧ sleepDuration 9223372037 = -9223372036709551616
      ∧ sleepDuration 9223372037 ≠ 9223372037 * 1000000000
      ∧ (pollCycle { defaults with interval := 9223372037 } scripted
          (World.initial [.notReady])).1.trace
        = [ .Sleep (-9223372036709551616), .HasMeasurement,
            .Print "Failed to get a measurement..." ] := by
  decide

/-! ## The signal goroutine -/

/-- The four states the signal goroutine can be in. -/
theorem SignalTask.steps_reach (t : SignalTask) (inputs : List SignalInput)
    (ht : t = ⟨.receive, true, 0, 0⟩ ∨ t = ⟨.stop, true, 1, 0⟩
      ∨ t = ⟨.cancel, false, 1, 0⟩ ∨ t = ⟨.returned, false, 1, 1⟩) :
    t.steps inputs = ⟨.receive, true, 0, 0⟩ ∨ t.steps inputs = ⟨.stop, true, 1, 0⟩
      ∨ t.steps inputs = ⟨.cancel, false, 1, 0⟩ ∨ t.steps inputs = ⟨.returned, false, 1, 1⟩ := by
  induction inputs generalizing t with
  | nil => exact ht
  | cons i rest ih =>
    apply ih
    rcases ht with rfl | rfl | rfl | rfl <;> cases i <;> simp [SignalTask.step]

/-- Without a signal the goroutine stays blocked in the receive. -/
theorem SignalTask.steps_no_signal (inputs : List SignalInput)
    (h : SignalInput.signal ∉ inputs) :
    SignalTask.start.steps inputs = SignalTask.start := by
  induction inputs with
  | nil => rfl
  | cons i rest ih =>
    cases i with
    | signal => exact absurd (List.mem_cons_self _ _) h
    | run => exact ih (fun hm => h (List.mem_cons_of_mem _ hm))

/-- Once returned, the goroutine does nothing more. -/
theorem SignalTask.steps_returned (inputs : List SignalInput) :
    SignalTask.steps ⟨.returned, false, 1, 1⟩ inputs = ⟨.returned, false, 1, 1⟩ := by
  induction inputs with
  | nil => rfl
  | cons i rest ih => cases i <;> exact ih

/-- From `cancel()` the goroutine returns as soon as it runs once. -/
theorem SignalTask.steps_from_cancel (inputs : List SignalInput)
    (h : 1 ≤ inputs.count .run) :
    SignalTask.steps ⟨.cancel, false, 1, 0⟩ inputs = ⟨.returned, false, 1, 1⟩ := by
  induction inputs with
  | nil => simp at h
  | cons i rest ih =>
    cases i with
    | signal => exact ih (by simpa using h)
    | run => exact SignalTask.steps_returned rest

/-- From `signal.Stop(c)` the goroutine returns as soon as it runs twice. -/
theorem SignalTask.steps_from_stop (inputs : List SignalInput)
    (h : 2 ≤ inputs.count .run) :
    SignalTask.steps ⟨.stop, true, 1, 0⟩ inputs = ⟨.returned, false, 1, 1⟩ := by
  induction inputs with
  | nil => simp at h
  | cons i rest ih =>
    cases i with
    | signal => exact ih (by simpa using h)
    | run =>
      have h1 : 1 ≤ rest.count .run := by
        rw [List.count_cons_self] at h
        omega
      exact SignalTask.steps_from_cancel rest h1

/-- C9: over every sequence of signals and scheduling steps the signal goroutine
calls `cancel` at most once; it receives at most one signal, and never cancels
before it has received one (so not before a signal was sent); on the first
signal it runs `signal.Stop`, then `cancel` exactly once, then returns, and no
later signal or step changes that. -/
theorem cancel_at_most_once (inputs : List SignalInput) :
    (SignalTask.start.steps inputs).cancelCalls ≤ 1
      ∧ (SignalTask.start.steps inputs).received ≤ 1
      ∧ (SignalTask.start.steps inputs).cancelCalls ≤ (SignalTask.start.steps inputs).received
      ∧ ((SignalTask.start.steps inputs).ctxDone = true → SignalInput.signal ∈ inputs)
      ∧ (∀ before after : List SignalInput, inputs = before ++ .signal :: after →
          SignalInput.signal ∉ before → 2 ≤ after.count .run →
          ∀ later : List SignalInput,
            SignalTask.start.steps (inputs ++ later) = ⟨.returned, false, 1, 1⟩) := by
  have hr := SignalTask.steps_reach SignalTask.start inputs (Or.inl rfl)
  refine ⟨?_, ?_, ?_, ?_, ?_⟩
  · rcases hr with h | h | h | h <;> simp [h]
  · rcases hr with h | h | h | h <;> simp [h]
  · rcases hr with h | h | h | h <;> simp [h]
  · intro hd
    by_contra hn
    rw [SignalTask.steps_no_signal inputs hn] at hd
    exact absurd hd (by decide)
  · intro before after hin hb ha later
    subst hin
    have h1 : SignalTask.start.steps ((before ++ .signal :: after) ++ later)
        = SignalTask.steps (SignalTask.steps (SignalTask.step
            (SignalTask.start.steps before) .signal) after) later := by
      simp [SignalTask.steps, List.foldl_append]
    rw [h1, SignalTask.steps_no_signal before hb]
    have h2 : SignalTask.start.step .signal = ⟨.stop, true, 1, 0⟩ := rfl
    rw [h2, SignalTask.steps_from_stop after ha, SignalTask.steps_returned]

/-- An instance of C9: two scheduling steps, a signal, two more steps, and a
second signal. -/
theorem cancel_at_most_once_witness :
    SignalTask.start.steps [.run, .run, .signal, .run, .run, .signal, .run]
      = ⟨.returned, false, 1, 1⟩ :=
  (cancel_at_most_once [.run, .run, .signal, .run, .run]).2.2.2.2
    [.run, .run] [.run, .run] rfl (by decide) (by decide) [.signal, .run]

/-! ## Flags -/

/-- A flag that is consumed sets one registered variable, records its name and
consumes at most one more argument. -/
theorem parseFlag_seen (P : String → Option Int) (f f1 : FlagSet) (rest : List String)
    (name : List Char) (h : parseFlag P f rest name = .seen f1) :
    f1.args.length ≤ rest.length
      ∧ ∃ name value, setValue P name value f.vars = some f1.vars
          ∧ f1.actual = name :: f.actual := by
  unfold parseFlag at h
  split at h
  · simp at h
  · simp at h
  · simp at h
  · dsimp only at h
    split at h
    · split at h
      · simp at h
      · rename_i value rest1 harg
        split at h
        · simp at h
        · rename_i c hset
          simp only [ParseOne.seen.injEq] at h
          subst h
          refine ⟨?_, _, _, hset, rfl⟩
          split at harg
          · simp only [Option.some.injEq, Prod.mk.injEq] at harg
            rw [← harg.2]
          · simp only [Option.some.injEq, Prod.mk.injEq] at harg
            rw [← harg.2]
            simp
          · simp at harg
    · split at h <;> simp at h

/-- The second half of `parseOne` never ends the flags without an error. -/
theorem parseFlag_not_done (P : String → Option Int) (f f1 : FlagSet) (rest : List String)
    (name : List Char) : parseFlag P f rest name ≠ .done f1 := by
  intro h
  unfold parseFlag at h
  split at h
  · simp at h
  · simp at h
  · simp at h
  · dsimp only at h
    split at h
    · split at h
      · simp at h
      · split at h <;> simp at h
    · split at h <;> simp at h

/-- The step `parseOne`, when it consumes a flag, shortens the arguments. -/
theorem parseOne_seen (P : String → Option Int) (f f1 : FlagSet)
    (h : parseOne P f = .seen f1) :
    f1.args.length < f.args.length
      ∧ ∃ name value, setValue P name value f.vars = some f1.vars
          ∧ f1.actual = name :: f.actual := by
  unfold parseOne at h
  split at h
  · simp at h
  · rename_i s rest hargs
    split at h
    · split at h
      · simp at h
      · have hs := parseFlag_seen P f f1 rest _ h
        refine ⟨?_, hs.2⟩
        rw [hargs, List.length_cons]
        omega
    · simp at h

/-- The step `parseOne`, when it ends the flags, leaves the variables alone. -/
theorem parseOne_done (P : String → Option Int) (f f1 : FlagSet)
    (h : parseOne P f = .done f1) :
    f1.vars = f.vars ∧ f1.actual = f.actual := by
  unfold parseOne at h
  split at h
  · simp only [ParseOne.done.injEq] at h
    subst h
    exact ⟨rfl, rfl⟩
  · split at h
    · split at h
      · simp only [ParseOne.done.injEq] at h
        subst h
        exact ⟨rfl, rfl⟩
      · exact absurd h (parseFlag_not_done P f f1 _ _)
    · simp only [ParseOne.done.injEq] at h
      subst h
      exact ⟨rfl, rfl⟩

/-- The method `Value.Set` changes the variable of its own flag only. -/
theorem setValue_some (P : String → Option Int) (name value : String) (c c1 : Config)
    (h : setValue P name value c = some c1) :
    (name = "db" ∧ c1 = { c with db := value })
      ∨ (name = "i2c" ∧ c1 = { c with i2c := value })
      ∨ (name = "interval" ∧ ∃ n, P value = some n ∧ c1 = { c with interval := n }) := by
  unfold setValue at h
  split at h
  · rename_i hn
    exact Or.inl ⟨hn, by simpa using h.symm⟩
  · split at h
    · rename_i hn
      exact Or.inr (Or.inl ⟨hn, by simpa using h.symm⟩)
    · split at h
      · rename_i hn
        rcases hp : P value with _ | n
        · simp [hp] at h
        · exact Or.inr (Or.inr ⟨hn, n, rfl, by simpa [hp] using h.symm⟩)
      · simp at h

/-- Consuming a flag keeps every flag that was not set at its default. -/
theorem parseOne_untouched (P : String → Option Int) (f f1 : FlagSet)
    (h : parseOne P f = .seen f1) (hf : f.untouched) : f1.untouched := by
  obtain ⟨_, name, value, hset, hact⟩ := parseOne_seen P f f1 h
  unfold FlagSet.untouched at hf ⊢
  rw [hact]
  rcases setValue_some P name value f.vars f1.vars hset with
    ⟨rfl, hc⟩ | ⟨rfl, hc⟩ | ⟨rfl, n, _, hc⟩ <;> rw [hc] <;>
    refine ⟨fun hn => ?_, fun hn => ?_, fun hn => ?_⟩ <;>
    first
      | exact absurd (List.mem_cons_self _ _) hn
      | exact hf.1 (fun hm => hn (List.mem_cons_of_mem _ hm))
      | exact hf.2.1 (fun hm => hn (List.mem_cons_of_mem _ hm))
      | exact hf.2.2 (fun hm => hn (List.mem_cons_of_mem _ hm))

/-- When the loop of `Parse` returns, every flag that was not set is at its
default. -/
theorem parseLoop_untouched (P : String → Option Int) (fuel : Nat) (f f1 : FlagSet)
    (h : parseLoop P fuel f = some (.ok f1)) (hf : f.untouched) : f1.untouched := by
  induction fuel generalizing f with
  | zero => simp [parseLoop] at h
  | succ n ih =>
    unfold parseLoop at h
    split at h
    · rename_i f2 hone
      exact ih f2 h (parseOne_untouched P f f2 hone hf)
    · rename_i f2 hone
      simp only [Option.some.injEq, Parsed.ok.injEq] at h
      subst h
      have hd := parseOne_done P f f2 hone
      unfold FlagSet.untouched at hf ⊢
      rw [hd.1, hd.2]
      exact hf
    · simp at h
    · simp at h

/-- The loop of `Parse` ends within one step per argument, plus one. -/
theorem parseLoop_total (P : String → Option Int) (fuel : Nat) (f : FlagSet)
    (h : f.args.length < fuel) : ∃ r, parseLoop P fuel f = some r := by
  induction fuel generalizing f with
  | zero => omega
  | succ n ih =>
    unfold parseLoop
    split
    · rename_i f2 hone
      exact ih f2 (by have := (parseOne_seen P f f2 hone).1; omega)
    · exact ⟨_, rfl⟩
    · exact ⟨_, rfl⟩
    · exact ⟨_, rfl⟩

/-- C8: without command-line options `init` leaves the persistence directory at
"./db", the I2C bus at the empty string and the interval at 5; each option given
alone sets its own variable and leaves the other two at their defaults; and for
every command line, `init` ends, and when it returns every flag that the
command line did not set is still at its default. -/
theorem flags_default_and_override (ParseInt : String → Option Int) :
    init ParseInt [] =
        some (.ok { vars := { db := "./db", i2c := "", interval := 5 }, actual := [], args := [] })
      ∧ (∀ v : String, init ParseInt ["-db", v] =
          some (.ok { vars := { db := v, i2c := "", interval := 5 }, actual := ["db"], args := [] }))
      ∧ (∀ v : String, init ParseInt ["-i2c", v] =
          some (.ok { vars := { db := "./db", i2c := v, interval := 5 }, actual := ["i2c"],
                      args := [] }))
      ∧ (∀ (v : String) (n : Int), ParseInt v = some n → init ParseInt ["-interval", v] =
          some (.ok { vars := { db := "./db", i2c := "", interval := n }, actual := ["interval"],
                      args := [] }))
      ∧ (∀ args : List String, ∃ r, init ParseInt args = some r)
      ∧ (∀ (args : List String) (f : FlagSet), init ParseInt args = some (.ok f) →
          ("db" ∉ f.actual → f.vars.db = "./db")
            ∧ ("i2c" ∉ f.actual → f.vars.i2c = "")
            ∧ ("interval" ∉ f.actual → f.vars.interval = 5)) := by
  refine ⟨rfl, fun v => rfl, fun v => rfl, ?_, ?_, ?_⟩
  · intro v n hv
    simp [init, Parse, parseLoop, parseOne, parseFlag, splitEquals, formal, setValue, defaults,
      List.span, List.span.loop, hv]
  · intro args
    exact parseLoop_total ParseInt _ _ (Nat.lt_succ_self _)
  · intro args f h
    exact parseLoop_untouched ParseInt _ _ f h ⟨fun _ => rfl, fun _ => rfl, fun _ => rfl⟩

/-- An instance of C8 with the integer syntax of the standard library on a
64-bit platform: `-interval 30` alone changes the interval only. -/
theorem flags_default_and_override_witness :
    strconvParseInt 64 "30" = some 30
      ∧ init (strconvParseInt 64) ["-interval", "30"] =
        some (.ok { vars := { db := "./db", i2c := "", interval := 30 }, actual := ["interval"],
                    args := [] }) :=
  ⟨by decide, (flags_default_and_override (strconvParseInt 64)).2.2.2.1 "30" 30 (by decide)⟩

end SCD30
